import Mathlib

/-!
# Verification of the vocabulary-app spaced-repetition scheduling engine

The repository documents an SM-2 scheduling engine implemented in
`backend/python-service/spaced_repetition.py` and exposed through
`backend/python-service/routes/review.py`.  Those two Python files are not
present in the source tree that accompanies this development; only their
documentation (`README.md`, `API_DOCUMENTATION.md`, `DATABASE_SCHEMA.md`),
their database schema, and their frontend callers
(`frontend/src/app/homepage/study/page.tsx`, `frontend/src/lib/api.ts`) are.
The scheduler core, the statistics aggregator and the due-item query are
therefore modelled from the specification's words (marked
`Modelled from the spec:` below), completed where the spec is silent by the
repository's own documentation, while the wire-format definitions for the
review interface are translated from the frontend sources that do exist.

Numeric conventions: every ease-factor value the algorithm manipulates is an
integer multiple of 0.01 (the default is 2.50, the clamp floor is 1.30, and
the update increment `0.1 - (5 - quality) * (0.08 + (5 - quality) * 0.02)`
is a multiple of 0.01 for integer quality), so the embedding stores ease
factors exactly as integer hundredths: `250` stands for 2.5, `130` for the
floor 1.3, `50` for 0.5.  Day counts and counters are `ℕ`; timestamps are
integer day numbers.  Rounding of `intervalDays * easeFactor'` is
round-half-up, the rule the spec fixes in §9.
-/

namespace VocabApp

/-- The four discrete review outcomes of §4.1 (and the four answer buttons of
`study/page.tsx`). -/
inductive ReviewOutcome
  | incorrect
  | hard
  | medium
  | easy
deriving DecidableEq, Repr

/-- Modelled from the spec: the outcome → SM-2 quality table of §4.1
(also `API_DOCUMENTATION.md` "User Response Mapping"). -/
def quality : ReviewOutcome → ℕ
  | .incorrect => 1
  | .hard => 3
  | .medium => 4
  | .easy => 5

/-- The four learning states of the §4.1 state machine (the
`status` ENUM of the `user_progress` table). -/
inductive Status
  | new
  | learning
  | review
  | mastered
deriving DecidableEq, Repr

/-- One per (learner, item) pair: §3's ProgressRecord, mirroring the columns
of the `user_progress` table in `DATABASE_SCHEMA.md`.  `easeFactor` is in
integer hundredths (250 = 2.5). -/
structure ProgressRecord where
  easeFactor : ℤ
  intervalDays : ℕ
  repetitions : ℕ
  reviewCount : ℕ
  correctCount : ℕ
  lastReviewedAt : Option ℤ
  nextReviewAt : Option ℤ
  status : Status
deriving DecidableEq, Repr

/-- Modelled from the spec: the ease-factor increment
`0.1 - (5 - quality) * (0.08 + (5 - quality) * 0.02)` of §4.1 step 2,
in hundredths: `10 - (5 - q) * (8 + (5 - q) * 2)`. -/
def efDelta (q : ℕ) : ℤ :=
  10 - ((5 : ℤ) - q) * (8 + ((5 : ℤ) - q) * 2)

/-- Round-half-up of `x / 100`, i.e. `⌊(x + 50) / 100⌋` (floor division, so
exact round-half-up also for the values below one half).  §9 fixes
round-half-up as the rounding rule for interval growth. -/
def roundHundredths (x : ℤ) : ℕ :=
  ((x + 50).fdiv 100).toNat

/-- Modelled from the spec: the §4.1 state machine, recomputed from the
numeric state.  The spec lists `new` (intervalDays == 0 and
reviewCount == 0), `learning` (intervalDays in [1,6]), `review`
(intervalDays in [7,30]) and `mastered` (intervalDays > 30 and
easeFactor > 2.5); for the combinations the spec leaves open the
classification follows `DATABASE_SCHEMA.md`, whose ranges are total:
`learning`: interval < 7, `review`: interval >= 7,
`mastered`: interval > 30 and ease_factor > 2.5. -/
def deriveStatus (intervalDays reviewCount : ℕ) (easeFactor : ℤ) : Status :=
  if intervalDays = 0 ∧ reviewCount = 0 then .new
  else if 30 < intervalDays ∧ 250 < easeFactor then .mastered
  else if 7 ≤ intervalDays then .review
  else .learning

/-- A fresh record as created when a learner adds an item (§3 lifecycle;
`user_progress` column defaults): status New, all counters zero,
ease factor 2.5, no timestamps. -/
def freshRecord : ProgressRecord :=
  { easeFactor := 250
    intervalDays := 0
    repetitions := 0
    reviewCount := 0
    correctCount := 0
    lastReviewedAt := none
    nextReviewAt := none
    status := .new }

/-- Modelled from the spec: the §3 ProgressRecord invariants —
ease factor at least 1.3, repetitions zero on a New record,
`nextReviewAt` derived as `lastReviewedAt + intervalDays`, and
`correctCount ≤ reviewCount`. -/
def ValidRecord (r : ProgressRecord) : Prop :=
  130 ≤ r.easeFactor ∧
  (r.status = .new → r.repetitions = 0) ∧
  r.nextReviewAt = r.lastReviewedAt.map (fun t => t + (r.intervalDays : ℤ)) ∧
  r.correctCount ≤ r.reviewCount

instance (r : ProgressRecord) : Decidable (ValidRecord r) := by
  unfold ValidRecord; infer_instance

/-- Modelled from the spec: the SM-2 numeric update of §4.1, driven by the
quality score.  Step 2 updates and clamps the ease factor on every branch;
step 3 branches on success (quality ≥ 3); steps 4–6 bump the counters, set
the timestamps and recompute the status.  `intervalDays * easeFactor'` in
hundredths is `intervalDays * ef`, rounded by `roundHundredths`. -/
def applySM2 (r : ProgressRecord) (q : ℕ) (now : ℤ) : ProgressRecord :=
  let ef := max 130 (r.easeFactor + efDelta q)
  let success := 3 ≤ q
  let reps := if success then r.repetitions + 1 else 0
  let interval : ℕ :=
    if success then
      if reps = 1 then 1
      else if reps = 2 then 6
      else roundHundredths ((r.intervalDays : ℤ) * ef)
    else 1
  { easeFactor := ef
    intervalDays := interval
    repetitions := reps
    reviewCount := r.reviewCount + 1
    correctCount := r.correctCount + (if success then 1 else 0)
    lastReviewedAt := some now
    nextReviewAt := some (now + (interval : ℤ))
    status := deriveStatus interval (r.reviewCount + 1) ef }

/-- Modelled from the spec: the Scheduler Core contract
`submitReview(record, outcome, now)` of §4.1 — map the outcome to a quality
score, then apply the SM-2 update. -/
def submitReview (r : ProgressRecord) (o : ReviewOutcome) (now : ℤ) :
    ProgressRecord :=
  applySM2 r (quality o) now

/-- The §7 error taxonomy, restricted to the part the Scheduler Core itself
raises. -/
inductive ReviewError
  | invalidOutcome
deriving DecidableEq, Repr

/-- Modelled from the spec: recognition of the four §4.1 outcome signals by
name; every other raw value is unrecognized. -/
def parseOutcome (s : String) : Option ReviewOutcome :=
  if s = "incorrect" then some .incorrect
  else if s = "hard" then some .hard
  else if s = "medium" then some .medium
  else if s = "easy" then some .easy
  else none

/-- Modelled from the spec: the validating entry point of §7 — a malformed
outcome is rejected with `InvalidOutcome` before any mutation; a recognized
one runs the pure SM-2 computation and returns the complete new record. -/
def submitReviewChecked (r : ProgressRecord) (s : String) (now : ℤ) :
    Except ReviewError ProgressRecord :=
  match parseOutcome s with
  | none => .error .invalidOutcome
  | some o => .ok (submitReview r o now)

/-- All records produced along a sequence of review submissions, the start
record included: the trace of §8's "for all sequences of reviews"
properties. -/
def reviewStates (r : ProgressRecord) :
    List (ReviewOutcome × ℤ) → List ProgressRecord
  | [] => [r]
  | e :: es => r :: reviewStates (submitReview r e.1 e.2) es

/-- The §3 StatisticsRecord, mirroring the `user_statistics` table of
`backend/schema.sql` (words_learned, words_mastered, total_reviews,
correct_reviews, current_streak, longest_streak, last_review_date).
Dates are day numbers. -/
structure StatisticsRecord where
  itemsLearned : ℕ
  itemsMastered : ℕ
  totalReviews : ℕ
  correctReviews : ℕ
  currentStreak : ℕ
  longestStreak : ℕ
  lastReviewDate : Option ℤ
deriving DecidableEq, Repr

/-- Modelled from the spec: the Statistics Aggregator contract
`recordReview(stats, outcome, reviewDate)` of §4.2 — bump the totals, update
the streak by comparing `reviewDate` with `lastReviewDate` (same day: no
change; exactly one day later: +1; otherwise, or with no prior date: reset
to 1), re-evaluate `longestStreak` and store the review date. -/
def recordReview (s : StatisticsRecord) (o : ReviewOutcome) (d : ℤ) :
    StatisticsRecord :=
  let streak :=
    match s.lastReviewDate with
    | none => 1
    | some p =>
      if d = p then s.currentStreak
      else if d = p + 1 then s.currentStreak + 1
      else 1
  { s with
    totalReviews := s.totalReviews + 1
    correctReviews := s.correctReviews + (if 3 ≤ quality o then 1 else 0)
    currentStreak := streak
    longestStreak := max s.longestStreak streak
    lastReviewDate := some d }

/-- A stored item: an item identifier paired with its progress record. -/
abbrev StoredItem := ℕ × ProgressRecord

/-- Modelled from the spec: §4.3 due test — a record is due when its
`nextReviewAt` has passed (`nextReviewAt <= now`); a record that has never
been scheduled is not due. -/
def isDue (now : ℤ) (e : StoredItem) : Bool :=
  match e.2.nextReviewAt with
  | some t => decide (t ≤ now)
  | none => false

/-- Modelled from the spec: the §4.3 ordering — `nextReviewAt` ascending,
ties broken by item identifier.  (`getD 0` only matters for unscheduled
records, which the due filter removes before sorting.) -/
def dueOrder (a b : StoredItem) : Prop :=
  a.2.nextReviewAt.getD 0 < b.2.nextReviewAt.getD 0 ∨
    (a.2.nextReviewAt.getD 0 = b.2.nextReviewAt.getD 0 ∧ a.1 ≤ b.1)

instance : DecidableRel dueOrder := fun a b => by
  unfold dueOrder; infer_instance

instance : IsTotal StoredItem dueOrder :=
  ⟨by intro a b; unfold dueOrder; omega⟩

instance : IsTrans StoredItem dueOrder :=
  ⟨by intro a b c; unfold dueOrder; omega⟩

/-- Modelled from the spec: the §4.3 due query
`listDue(learnerId, now, limit)` — every record with `nextReviewAt <= now`,
sorted by `nextReviewAt` ascending with ties broken by item identifier,
optionally capped at a caller-supplied limit. -/
def listDue (items : List StoredItem) (now : ℤ) (limit : Option ℕ) :
    List StoredItem :=
  let sorted := (items.filter (isDue now)).insertionSort dueOrder
  match limit with
  | none => sorted
  | some k => sorted.take k

/-- The body of the POST to `/review/submit`, as built by `submitReview` in
`frontend/src/lib/api.ts`: a `correct` boolean and a `difficulty` string
(the `word_id` field is the store key, not part of the outcome). -/
structure WireReview where
  correct : Bool
  difficulty : String
deriving DecidableEq, Repr

/-- Translated from `frontend/src/app/homepage/study/page.tsx`: the four
answer buttons call `handleAnswer(correct, difficulty)` with
Incorrect → `(false, "hard")`, Hard → `(true, "hard")`,
Medium → `(true, "medium")`, Easy → `(true, "easy")`. -/
def encodeOutcome : ReviewOutcome → WireReview
  | .incorrect => ⟨false, "hard"⟩
  | .hard => ⟨true, "hard"⟩
  | .medium => ⟨true, "medium"⟩
  | .easy => ⟨true, "easy"⟩

/-- Modelled from the spec: the backend's quality derivation from the wire
pair, per `API_DOCUMENTATION.md` "User Response Mapping" —
correct=true with easy/medium/hard gives quality 5/4/3, and correct=false
gives quality 1 whatever the difficulty string says. -/
def wireQuality (w : WireReview) : ℕ :=
  if w.correct then
    if w.difficulty = "easy" then 5
    else if w.difficulty = "medium" then 4
    else 3
  else 1

/-- Modelled from the spec: a review submission as it arrives over the wire —
derive the quality from the `(correct, difficulty)` pair and run the SM-2
update. -/
def submitReviewWire (r : ProgressRecord) (w : WireReview) (now : ℤ) :
    ProgressRecord :=
  applySM2 r (wireQuality w) now

/-- The §8 scenario record: a Mastered item at `intervalDays = 40`,
`easeFactor = 2.6` (260 hundredths). -/
def masteredExample : ProgressRecord :=
  { easeFactor := 260
    intervalDays := 40
    repetitions := 5
    reviewCount := 10
    correctCount := 8
    lastReviewedAt := some 0
    nextReviewAt := some 40
    status := .mastered }

/-- A concrete statistics record with a prior review on day 5, for
instantiating the aggregator theorems. -/
def statsExample : StatisticsRecord :=
  { itemsLearned := 3
    itemsMastered := 1
    totalReviews := 20
    correctReviews := 15
    currentStreak := 4
    longestStreak := 6
    lastReviewDate := some 5 }

/-! ## General lemmas about the scheduler core -/

theorem easeFactor_submitReview (r : ProgressRecord) (o : ReviewOutcome)
    (now : ℤ) :
    (submitReview r o now).easeFactor =
      max 130 (r.easeFactor + efDelta (quality o)) := rfl

theorem reviewCount_submitReview (r : ProgressRecord) (o : ReviewOutcome)
    (now : ℤ) :
    (submitReview r o now).reviewCount = r.reviewCount + 1 := rfl

theorem status_submitReview (r : ProgressRecord) (o : ReviewOutcome)
    (now : ℤ) :
    (submitReview r o now).status =
      deriveStatus (submitReview r o now).intervalDays
        (submitReview r o now).reviewCount
        (submitReview r o now).easeFactor := rfl

theorem efDelta_one : efDelta 1 = -54 := by decide

theorem efDelta_three : efDelta 3 = -14 := by decide

theorem efDelta_four : efDelta 4 = 0 := by decide

theorem efDelta_five : efDelta 5 = 10 := by decide

theorem repetitions_submitReview_of_success (r : ProgressRecord)
    (o : ReviewOutcome) (now : ℤ) (hs : 3 ≤ quality o) :
    (submitReview r o now).repetitions = r.repetitions + 1 := by
  unfold submitReview applySM2
  simp [hs]

theorem intervalDays_submitReview_of_success (r : ProgressRecord)
    (o : ReviewOutcome) (now : ℤ) (hs : 3 ≤ quality o) :
    (submitReview r o now).intervalDays =
      if r.repetitions + 1 = 1 then 1
      else if r.repetitions + 1 = 2 then 6
      else roundHundredths
        ((r.intervalDays : ℤ) * max 130 (r.easeFactor + efDelta (quality o))) := by
  unfold submitReview applySM2
  simp [hs]

theorem correctCount_submitReview (r : ProgressRecord) (o : ReviewOutcome)
    (now : ℤ) :
    (submitReview r o now).correctCount =
      r.correctCount + (if 3 ≤ quality o then 1 else 0) := rfl

theorem deriveStatus_of_reviewed (i rc : ℕ) (ef : ℤ) (h : rc ≠ 0) :
    (deriveStatus i rc ef = .new ↔ i = 0 ∧ rc = 0) ∧
    (deriveStatus i rc ef = .learning ↔ i ≤ 6) ∧
    (deriveStatus i rc ef = .review ↔ 7 ≤ i ∧ ¬(30 < i ∧ 250 < ef)) ∧
    (deriveStatus i rc ef = .mastered ↔ 30 < i ∧ 250 < ef) := by
  unfold deriveStatus
  split_ifs with h1 h2 h3 <;> simp_all <;> omega

/-! ## The claims -/

/-- C1 (counterexample): the claim's parenthetical "quality >= 4 raises the
ease factor" is false — quality 4 (Medium) has increment
`0.1 - 1 * (0.08 + 1 * 0.02) = 0` exactly, so a Medium review leaves the
ease factor unchanged (here: a fresh record keeps ease factor 2.5). -/
theorem medium_leaves_ease_factor_unchanged :
    4 ≤ quality ReviewOutcome.medium ∧
    (submitReview freshRecord ReviewOutcome.medium 0).easeFactor =
      freshRecord.easeFactor := by
  decide

/-- C1 (amended): for every record satisfying the §3 invariants and every
outcome, `submitReview` sets the ease factor to
`easeFactor + (0.1 - (5 - quality) * (0.08 + (5 - quality) * 0.02))` clamped
to a minimum of 1.3 (in hundredths: `max 130 (easeFactor + efDelta q)`), on
the success branch and the failure branch alike; quality 1 always lowers it
subject to the floor, quality 5 raises it, and quality 4 leaves it
unchanged. -/
theorem ease_factor_update_formula (r : ProgressRecord) (h : ValidRecord r)
    (o : ReviewOutcome) (now : ℤ) :
    (submitReview r o now).easeFactor =
      max 130 (r.easeFactor + efDelta (quality o)) ∧
    ((submitReview r ReviewOutcome.incorrect now).easeFactor < r.easeFactor ∨
      (submitReview r ReviewOutcome.incorrect now).easeFactor = 130) ∧
    (submitReview r ReviewOutcome.medium now).easeFactor = r.easeFactor ∧
    r.easeFactor < (submitReview r ReviewOutcome.easy now).easeFactor := by
  obtain ⟨hef, -, -, -⟩ := h
  refine ⟨rfl, ?_, ?_, ?_⟩ <;>
    simp only [easeFactor_submitReview, quality, efDelta_one, efDelta_four,
      efDelta_five] <;>
    omega

/-- C1 (witness): the amended theorem at the fresh record and an Easy
review — the ease factor rises from 2.5 to 2.6. -/
theorem ease_factor_update_formula_witness :
    freshRecord.easeFactor <
      (submitReview freshRecord ReviewOutcome.easy 0).easeFactor :=
  (ease_factor_update_formula freshRecord (by decide)
    ReviewOutcome.easy 0).2.2.2

/-- C2: on a successful outcome (quality ≥ 3) `submitReview` increments
repetitions, and sets the interval to 1 when the new repetition count is 1,
to 6 when it is 2, and to `round(intervalDays * easeFactor')` otherwise;
consequently a fresh New record given two successful reviews produces the
interval sequence [1, 6], whichever success outcomes are used. -/
theorem success_interval_schedule (r : ProgressRecord) (o : ReviewOutcome)
    (now : ℤ) (hs : 3 ≤ quality o) :
    (submitReview r o now).repetitions = r.repetitions + 1 ∧
    ((submitReview r o now).repetitions = 1 →
      (submitReview r o now).intervalDays = 1) ∧
    ((submitReview r o now).repetitions = 2 →
      (submitReview r o now).intervalDays = 6) ∧
    (3 ≤ (submitReview r o now).repetitions →
      (submitReview r o now).intervalDays =
        roundHundredths
          ((r.intervalDays : ℤ) * (submitReview r o now).easeFactor)) ∧
    (∀ o2 : ReviewOutcome, 3 ≤ quality o2 → ∀ t1 t2 : ℤ,
      (submitReview freshRecord o t1).intervalDays = 1 ∧
      (submitReview (submitReview freshRecord o t1) o2 t2).intervalDays = 6) := by
  have hreps := repetitions_submitReview_of_success r o now hs
  have hint := intervalDays_submitReview_of_success r o now hs
  refine ⟨hreps, ?_, ?_, ?_, ?_⟩
  · intro h1
    rw [hreps] at h1
    simp [hint, h1]
  · intro h2
    rw [hreps] at h2
    rw [hint, h2]
    simp
  · intro h3
    rw [hreps] at h3
    rw [hint, easeFactor_submitReview]
    have : ¬ r.repetitions + 1 = 1 := by omega
    have : ¬ r.repetitions + 1 = 2 := by omega
    simp_all
  · intro o2 hs2 t1 t2
    constructor
    · rw [intervalDays_submitReview_of_success freshRecord o t1 hs]
      simp [freshRecord]
    · rw [intervalDays_submitReview_of_success _ o2 t2 hs2,
        repetitions_submitReview_of_success freshRecord o t1 hs]
      simp [freshRecord]

/-- C2 (witness): a fresh record reviewed Medium twice gets the interval
sequence [1, 6]. -/
theorem success_interval_schedule_witness :
    (submitReview freshRecord ReviewOutcome.medium 0).intervalDays = 1 ∧
    (submitReview (submitReview freshRecord ReviewOutcome.medium 0)
      ReviewOutcome.medium 1).intervalDays = 6 :=
  (success_interval_schedule freshRecord ReviewOutcome.medium 0
    (by decide)).2.2.2.2 ReviewOutcome.medium (by decide) 0 1

/-- C3: Incorrect — the only outcome with quality < 3 — resets repetitions
to 0 and the interval to 1 regardless of prior state, while every other
outcome (Hard included, its quality 3 meeting the success threshold) takes
the success branch and increments repetitions instead. -/
theorem incorrect_resets_repetitions (r : ProgressRecord) (now : ℤ)
    (o : ReviewOutcome) :
    (quality o < 3 ↔ o = ReviewOutcome.incorrect) ∧
    (submitReview r ReviewOutcome.incorrect now).repetitions = 0 ∧
    (submitReview r ReviewOutcome.incorrect now).intervalDays = 1 ∧
    (o ≠ ReviewOutcome.incorrect →
      (submitReview r o now).repetitions = r.repetitions + 1) := by
  refine ⟨by cases o <;> simp [quality], rfl, rfl, ?_⟩
  intro hne
  refine repetitions_submitReview_of_success r o now ?_
  cases o <;> simp_all [quality]

/-- C3 (witness): a Hard review of the Mastered example record increments
repetitions rather than resetting them. -/
theorem incorrect_resets_repetitions_witness :
    (submitReview masteredExample ReviewOutcome.hard 7).repetitions =
      masteredExample.repetitions + 1 :=
  (incorrect_resets_repetitions masteredExample 7 ReviewOutcome.hard).2.2.2
    (by decide)

/-- C4: the outcome → quality mapping is Incorrect → 1, Hard → 3,
Medium → 4, Easy → 5; every submission increments `reviewCount` by exactly
one, and increments `correctCount` by exactly one precisely when the quality
is at least 3 (so a Hard review counts as correct), leaving it unchanged
otherwise. -/
theorem quality_mapping_and_counters (r : ProgressRecord) (o : ReviewOutcome)
    (now : ℤ) :
    quality ReviewOutcome.incorrect = 1 ∧
    quality ReviewOutcome.hard = 3 ∧
    quality ReviewOutcome.medium = 4 ∧
    quality ReviewOutcome.easy = 5 ∧
    (submitReview r o now).reviewCount = r.reviewCount + 1 ∧
    ((submitReview r o now).correctCount = r.correctCount + 1 ↔
      3 ≤ quality o) ∧
    ((submitReview r o now).correctCount = r.correctCount ↔
      ¬ 3 ≤ quality o) := by
  refine ⟨rfl, rfl, rfl, rfl, rfl, ?_, ?_⟩ <;>
    rw [correctCount_submitReview] <;>
    cases o <;> simp [quality]

/-- C5 (counterexample): "Review iff intervalDays in [7,30]" fails.  A fresh
record reviewed Medium, Medium, Hard, Medium reaches intervalDays 33 with
ease factor 2.36 — more than 30 days but not above the 2.5 Mastered bar —
and its status is Review, outside the claimed [7,30] range. -/
theorem review_status_above_thirty_counterexample :
    (submitReview (submitReview (submitReview (submitReview freshRecord
        ReviewOutcome.medium 0) ReviewOutcome.medium 1)
        ReviewOutcome.hard 2) ReviewOutcome.medium 3).status = Status.review ∧
    (submitReview (submitReview (submitReview (submitReview freshRecord
        ReviewOutcome.medium 0) ReviewOutcome.medium 1)
        ReviewOutcome.hard 2) ReviewOutcome.medium 3).intervalDays = 33 ∧
    (submitReview (submitReview (submitReview (submitReview freshRecord
        ReviewOutcome.medium 0) ReviewOutcome.medium 1)
        ReviewOutcome.hard 2) ReviewOutcome.medium 3).easeFactor = 236 := by
  decide

/-- C5 (amended): after every call to `submitReview` the status equals the
classification recomputed from the post-update numeric state, and — since a
reviewed record always has `reviewCount ≥ 1` — that classification is: never
New (the New condition `intervalDays = 0 ∧ reviewCount = 0` is false),
Learning iff `intervalDays ≤ 6`, Review iff `intervalDays ≥ 7` and the
Mastered condition fails, Mastered iff `intervalDays > 30` and
`easeFactor > 2.5` (250 hundredths); status is never sticky — a single
Incorrect review of the Mastered example record (intervalDays 40,
easeFactor 2.6) reclassifies it as Learning because the interval resets
to 1. -/
theorem status_recomputed_after_review (r : ProgressRecord)
    (o : ReviewOutcome) (now : ℤ) :
    (submitReview r o now).status =
      deriveStatus (submitReview r o now).intervalDays
        (submitReview r o now).reviewCount
        (submitReview r o now).easeFactor ∧
    ((submitReview r o now).status = Status.new ↔
      (submitReview r o now).intervalDays = 0 ∧
      (submitReview r o now).reviewCount = 0) ∧
    ((submitReview r o now).status = Status.learning ↔
      (submitReview r o now).intervalDays ≤ 6) ∧
    ((submitReview r o now).status = Status.review ↔
      7 ≤ (submitReview r o now).intervalDays ∧
      ¬(30 < (submitReview r o now).intervalDays ∧
        250 < (submitReview r o now).easeFactor)) ∧
    ((submitReview r o now).status = Status.mastered ↔
      30 < (submitReview r o now).intervalDays ∧
      250 < (submitReview r o now).easeFactor) ∧
    (∀ t : ℤ,
      (submitReview masteredExample ReviewOutcome.incorrect t).status =
        Status.learning) := by
  have hrc : (submitReview r o now).reviewCount ≠ 0 := by
    rw [reviewCount_submitReview]; omega
  have hchar := deriveStatus_of_reviewed (submitReview r o now).intervalDays
    (submitReview r o now).reviewCount (submitReview r o now).easeFactor hrc
  refine ⟨status_submitReview r o now, ?_, ?_, ?_, ?_, fun t => rfl⟩ <;>
    rw [status_submitReview]
  · exact hchar.1
  · exact hchar.2.1
  · exact hchar.2.2.1
  · exact hchar.2.2.2

/-- Auxiliary induction for the ease-factor floor: along any review
sequence, a start record at or above the floor keeps every reached record at
or above the floor. -/
theorem ease_floor_invariant :
    ∀ (os : List (ReviewOutcome × ℤ)) (r : ProgressRecord),
      130 ≤ r.easeFactor → ∀ s ∈ reviewStates r os, 130 ≤ s.easeFactor := by
  intro os
  induction os with
  | nil =>
    intro r hr s hs
    simp only [reviewStates, List.mem_singleton] at hs
    exact hs ▸ hr
  | cons e es ih =>
    intro r hr s hs
    rw [reviewStates] at hs
    rcases List.mem_cons.mp hs with h | h
    · exact h ▸ hr
    · refine ih (submitReview r e.1 e.2) ?_ s h
      rw [easeFactor_submitReview]
      exact le_max_left _ _

/-- C6: along every finite sequence of reviews starting from a fresh New
record (ease factor 2.5 = 250 hundredths), every intermediate and final
record keeps an ease factor of at least 1.3 (130 hundredths). -/
theorem ease_factor_floor (os : List (ReviewOutcome × ℤ))
    (s : ProgressRecord) (hs : s ∈ reviewStates freshRecord os) :
    130 ≤ s.easeFactor :=
  ease_floor_invariant os freshRecord (by decide) s hs

/-- C6 (witness): the record after one Incorrect review of a fresh record is
on the trace of that one-review sequence, and its ease factor (1.96, i.e.
196) is at least the floor. -/
theorem ease_factor_floor_witness :
    submitReview freshRecord ReviewOutcome.incorrect 0 ∈
      reviewStates freshRecord [(ReviewOutcome.incorrect, 0)] ∧
    130 ≤ (submitReview freshRecord ReviewOutcome.incorrect 0).easeFactor :=
  ⟨by decide, ease_factor_floor [(ReviewOutcome.incorrect, 0)] _ (by decide)⟩

/-- C7: a raw outcome value is unrecognized exactly when it is none of the
four signal names; an unrecognized value makes `submitReviewChecked` fail
with `InvalidOutcome` (no record is produced, so nothing is mutated), and a
recognized one makes it return the complete new record of the pure
computation. -/
theorem invalid_outcome_rejected (r : ProgressRecord) (s : String)
    (now : ℤ) :
    (parseOutcome s = none ↔
      ¬(s = "incorrect" ∨ s = "hard" ∨ s = "medium" ∨ s = "easy")) ∧
    (parseOutcome s = none →
      submitReviewChecked r s now = Except.error ReviewError.invalidOutcome) ∧
    (∀ o : ReviewOutcome, parseOutcome s = some o →
      submitReviewChecked r s now = Except.ok (submitReview r o now)) := by
  refine ⟨?_, ?_, ?_⟩
  · unfold parseOutcome
    split_ifs <;> simp_all
  · intro h
    unfold submitReviewChecked
    rw [h]
  · intro o h
    unfold submitReviewChecked
    rw [h]

/-- C7 (witness): the raw value "perfect" is not a recognized signal and is
rejected with `InvalidOutcome`. -/
theorem invalid_outcome_rejected_witness :
    submitReviewChecked freshRecord "perfect" 0 =
      Except.error ReviewError.invalidOutcome :=
  (invalid_outcome_rejected freshRecord "perfect" 0).2.1 (by decide)

/-- C8: `recordReview` compares the review date with the stored
`lastReviewDate`: same day leaves the streak unchanged, exactly one day
later increments it, a gap of more than one day (or no prior date) resets it
to 1; afterwards `longestStreak` is the maximum of the old longest and the
new current streak, and `lastReviewDate` is the review date. -/
theorem streak_update (s : StatisticsRecord) (o : ReviewOutcome) (d : ℤ) :
    (s.lastReviewDate = some d →
      (recordReview s o d).currentStreak = s.currentStreak) ∧
    (s.lastReviewDate = some (d - 1) →
      (recordReview s o d).currentStreak = s.currentStreak + 1) ∧
    (s.lastReviewDate = none → (recordReview s o d).currentStreak = 1) ∧
    (∀ p : ℤ, s.lastReviewDate = some p → p + 1 < d →
      (recordReview s o d).currentStreak = 1) ∧
    (recordReview s o d).longestStreak =
      max s.longestStreak (recordReview s o d).currentStreak ∧
    (recordReview s o d).lastReviewDate = some d := by
  refine ⟨?_, ?_, ?_, ?_, rfl, rfl⟩ <;>
    unfold recordReview
  · intro h
    rw [h]
    simp
  · intro h
    rw [h]
    have h1 : ¬ d = d - 1 := by omega
    have h2 : d = d - 1 + 1 := by omega
    simp [h1, ← h2]
  · intro h
    rw [h]
  · intro p hp hgap
    rw [hp]
    have h1 : ¬ d = p := by omega
    have h2 : ¬ d = p + 1 := by omega
    simp [h1, h2]

/-- C8 (witness): the streak cases at the example statistics record (last
review on day 5): reviewing on day 6 increments the streak from 4 to 5. -/
theorem streak_update_witness :
    (recordReview statsExample ReviewOutcome.easy 6).currentStreak =
      statsExample.currentStreak + 1 :=
  (streak_update statsExample ReviewOutcome.easy 6).2.1 (by decide)

/-- C9: the due query returns exactly the stored records whose
`nextReviewAt` has passed (as a permutation of the due filter, and
membership-exact), sorted by `nextReviewAt` ascending with ties broken
deterministically by item identifier; with a caller-supplied limit it
returns the first `limit` of that sorted sequence, hence at most `limit`
records. -/
theorem due_query_contract (items : List StoredItem) (now : ℤ) :
    List.Perm (listDue items now none) (items.filter (isDue now)) ∧
    List.Sorted dueOrder (listDue items now none) ∧
    (∀ e : StoredItem,
      e ∈ listDue items now none ↔ e ∈ items ∧ isDue now e = true) ∧
    (∀ k : ℕ, listDue items now (some k) = (listDue items now none).take k) ∧
    (∀ k : ℕ, (listDue items now (some k)).length ≤ k) := by
  refine ⟨List.perm_insertionSort dueOrder _,
    List.sorted_insertionSort dueOrder _, ?_, fun k => rfl, ?_⟩
  · intro e
    show e ∈ (items.filter (isDue now)).insertionSort dueOrder ↔ _
    rw [List.mem_insertionSort, List.mem_filter]
  · intro k
    show ((((items.filter (isDue now)).insertionSort dueOrder).take k).length) ≤ k
    rw [List.length_take]
    omega

/-- C10: the frontend transmits an outcome as a `(correct, difficulty)`
pair, encoding the Incorrect button as `correct = false` with
`difficulty = "hard"`; `correct = false` alone determines quality 1, and the
accompanying difficulty string has no effect on the result of such a
submission, which coincides with an Incorrect review. -/
theorem incorrect_wire_encoding :
    encodeOutcome ReviewOutcome.incorrect = ⟨false, "hard"⟩ ∧
    (∀ d : String, wireQuality ⟨false, d⟩ = 1) ∧
    (∀ (r : ProgressRecord) (now : ℤ) (d d2 : String),
      submitReviewWire r ⟨false, d⟩ now = submitReviewWire r ⟨false, d2⟩ now) ∧
    (∀ (r : ProgressRecord) (now : ℤ) (d : String),
      submitReviewWire r ⟨false, d⟩ now =
        submitReview r ReviewOutcome.incorrect now) :=
  ⟨rfl, fun _ => rfl, fun _ _ _ _ => rfl, fun _ _ _ => rfl⟩

end VocabApp
